import Mathlib

set_option maxHeartbeats 1000000

/-! Verification of the waterbodies historical-extent workflow
(notebooks/HistoricalExtent/TurnWaterObservationsIntoWaterbodyPolygons.ipynb and
the HydroSHEDS land/sea mask tiling notebook).

Raster-derived geometries are embedded as finite sets of 30 m grid cells; the
shapely primitives unary_union and explode are modelled by their documented
semantics on such cell sets (merge geometries that share at least a boundary
point, return the connected single-part polygons of the union).  The
attribute-and-identity stage works on polygons given by their vertex rings with
rational coordinates, with area and centroid computed by the shoelace formulas
used by shapely, and the geohash identifier computed by the standard base-32
bit-interleaving algorithm of the python geohash package. -/

/-- One 30 m raster grid cell, addressed by integer column and row. -/
abbrev Cell : Type := ℤ × ℤ

/-- A raster-derived geometry: the finite set of grid cells it covers. -/
abbrev Geom : Type := Finset Cell

/-- Two grid cells share at least a boundary point (8-neighbourhood; a cell
also touches itself). -/
def cellTouches (a b : Cell) : Bool :=
  decide ((a.1 - b.1).natAbs ≤ 1 ∧ (a.2 - b.2).natAbs ≤ 1)

/-- Geometric intersects test between two cell geometries: they share at least
one point of the plane.  This is the predicate of gpd.sjoin with
predicate=intersects, and also the condition under which unary_union merges
two polygons into a single part. -/
def geomTouches (p q : Geom) : Bool :=
  decide (∃ a ∈ p, ∃ b ∈ q, cellTouches a b = true)

/-- Union of a head geometry with a list of further geometries, mirroring the
accumulation performed by shapely unary_union. -/
def mergeInto (x : Geom) : List Geom → Geom
  | [] => x
  | q :: l => mergeInto (x ∪ q) l

/-- Net effect of unary_union followed by explode(index_parts=True) on a list
of polygons: a polygon touching nothing else passes through as its own
single-part polygon, while each group of transitively touching polygons
collapses into one merged geometry.  The fuel argument bounds the recursion;
the length of the list is always sufficient fuel. -/
def unary_union_explode : Nat → List Geom → List Geom
  | 0, ps => ps
  | _ + 1, [] => []
  | fuel + 1, p :: rest =>
      let touching := rest.filter fun q => geomTouches p q
      if touching.isEmpty then
        p :: unary_union_explode fuel rest
      else
        unary_union_explode fuel
          (mergeInto p touching :: rest.filter fun q => !geomTouches p q)

/-- Does polygon p intersect any of the buffered tile-boundary rings, as
decided by the sjoin in the notebook. -/
def boundaryTouch (rings : List Geom) (p : Geom) : Bool :=
  rings.any fun r => geomTouches p r

/-- Boundary stitcher (notebook lines 709 to 731): join all waterbodies
against the buffered tile-boundary rings; if the join is empty nothing
changes, otherwise the boundary-touching polygons are unioned into a single
geometry, exploded back into single-part polygons, and concatenated with the
interior polygons that were left untouched. -/
def stitchWaterbodies (rings : List Geom) (waterbodies : List Geom) : List Geom :=
  let joined := waterbodies.filter (boundaryTouch rings)
  if joined.isEmpty then
    waterbodies
  else
    let tile_boundary_waterbodies := waterbodies.filter (boundaryTouch rings)
    let not_tile_boundary_waterbodies :=
      waterbodies.filter fun p => !boundaryTouch rings p
    let tile_boundary_waterbodies_merged :=
      unary_union_explode tile_boundary_waterbodies.length tile_boundary_waterbodies
    not_tile_boundary_waterbodies ++ tile_boundary_waterbodies_merged

/-- A polygon vertex in the attribute stage: rational planar coordinates. -/
abbrev Vertex : Type := ℚ × ℚ

/-- A polygon of the attribute stage, given by its exterior ring vertices. -/
abbrev VPoly : Type := List Vertex

/-- Consecutive vertex pairs of the closed exterior ring. -/
def ringEdges (g : VPoly) : List (Vertex × Vertex) := g.zip (g.rotate 1)

/-- Sum of the edge cross products of the exterior ring; twice the signed
area of the polygon. -/
def shoelaceSum (g : VPoly) : ℚ :=
  (ringEdges g).foldl (fun acc e => acc + (e.1.1 * e.2.2 - e.2.1 * e.1.2)) 0

/-- Polygon area as computed by the geometry.area accessor, via the shoelace
formula. -/
def polyArea (g : VPoly) : ℚ := |shoelaceSum g| / 2

/-- First coordinate of the polygon centroid, via the standard area-weighted
formula used by shapely. -/
def centroidX (g : VPoly) : ℚ :=
  ((ringEdges g).foldl
      (fun acc e => acc + (e.1.1 + e.2.1) * (e.1.1 * e.2.2 - e.2.1 * e.1.2)) 0)
    / (3 * shoelaceSum g)

/-- Second coordinate of the polygon centroid, via the standard area-weighted
formula used by shapely. -/
def centroidY (g : VPoly) : ℚ :=
  ((ringEdges g).foldl
      (fun acc e => acc + (e.1.2 + e.2.2) * (e.1.1 * e.2.2 - e.2.1 * e.1.2)) 0)
    / (3 * shoelaceSum g)

/-- Area filter (notebook lines 758 to 759): keep exactly the waterbodies
whose area is strictly greater than 4500 square metres. -/
def filterByArea (waterbodies : List VPoly) : List VPoly :=
  waterbodies.filter fun g => decide (4500 < polyArea g)

/-- Length filter (notebook lines 772 to 773): keep exactly the waterbodies
whose length metric is at most 150 km.  The length metric itself is computed
by get_polygon_length, whose source is outside this repository snapshot, so it
is taken as a parameter. -/
def filterByLength (get_polygon_length : VPoly → ℚ) (waterbodies : List VPoly) :
    List VPoly :=
  waterbodies.filter fun g => decide (get_polygon_length g ≤ 150 * 1000)

/-- The attribute-filtering step of the notebook: the area filter followed by
the length filter. -/
def filterAttributes (get_polygon_length : VPoly → ℚ) (waterbodies : List VPoly) :
    List VPoly :=
  filterByLength get_polygon_length (filterByArea waterbodies)

/-- State of the geohash bit-interleaving loop: the point being encoded, the
parity of the next bit, and the current latitude and longitude intervals. -/
structure GHState where
  latitude : ℚ
  longitude : ℚ
  even : Bool
  latLo : ℚ
  latHi : ℚ
  lonLo : ℚ
  lonHi : ℚ
deriving DecidableEq

/-- One bit of the geohash encoding: halve the active interval and emit
whether the coordinate lies in the upper half, alternating between longitude
and latitude. -/
def ghBit (s : GHState) : Bool × GHState :=
  if s.even then
    let mid := (s.lonLo + s.lonHi) / 2
    if mid < s.longitude then (true, { s with even := false, lonLo := mid })
    else (false, { s with even := false, lonHi := mid })
  else
    let mid := (s.latLo + s.latHi) / 2
    if mid < s.latitude then (true, { s with even := true, latLo := mid })
    else (false, { s with even := true, latHi := mid })

/-- Five successive geohash bits assembled into one base-32 digit value. -/
def ghBitsChar (s : GHState) : Nat × GHState :=
  let r1 := ghBit s
  let r2 := ghBit r1.2
  let r3 := ghBit r2.2
  let r4 := ghBit r3.2
  let r5 := ghBit r4.2
  (16 * r1.1.toNat + 8 * r2.1.toNat + 4 * r3.1.toNat + 2 * r4.1.toNat + r5.1.toNat,
    r5.2)

/-- The geohash base-32 alphabet. -/
def base32Chars : List Char := "0123456789bcdefghjkmnpqrstuvwxyz".toList

/-- Produce the requested number of geohash characters from the bit loop. -/
def ghEncodeAux : Nat → GHState → List Char
  | 0, _ => []
  | p + 1, s =>
      let cs := ghBitsChar s
      base32Chars.getD cs.1 (Char.ofNat 63) :: ghEncodeAux p cs.2

/-- Geohash encoding of a latitude and longitude at the given precision, as
computed by gh.encode of the python geohash package. -/
def gh_encode (precision : Nat) (latitude longitude : ℚ) : String :=
  String.mk (ghEncodeAux precision
    { latitude := latitude, longitude := longitude, even := true,
      latLo := -90, latHi := 90, lonLo := -180, lonHi := 180 })

/-- Unique identifier assignment (notebook lines 814 to 816): the geohash at
precision 10 of the centroid of the polygon, latitude first. -/
def assignUid (g : VPoly) : String := gh_encode 10 (centroidY g) (centroidX g)

/-- One row of the final waterbodies table: geometry, stable identifier, and
the surrogate ordinal wb_id. -/
structure WaterbodyRow where
  geometry : VPoly
  uid : String
  wb_id : Nat
deriving DecidableEq

/-- Insertion of one row into a list sorted by ascending uid. -/
def insertByUid (e : VPoly × String) : List (VPoly × String) → List (VPoly × String)
  | [] => [e]
  | f :: l => if !decide (f.2 < e.2) then e :: f :: l else f :: insertByUid e l

/-- Sorting of the uid-tagged rows by ascending uid, modelling
sort_values(by=[uid]). -/
def sortByUid : List (VPoly × String) → List (VPoly × String)
  | [] => []
  | e :: l => insertByUid e (sortByUid l)

/-- Row numbering after reset_index: wb_id is the row index plus one. -/
def numberRows : Nat → List (VPoly × String) → List WaterbodyRow
  | _, [] => []
  | i, e :: l => { geometry := e.1, uid := e.2, wb_id := i + 1 } :: numberRows (i + 1) l

/-- Identity assignment (notebook lines 814 to 821): compute each uid from the
geometry, assert that the uid column is unique (a collision raises an
AssertionError and aborts the run), then sort by uid and assign wb_id. -/
def assignIdentity (waterbodies : List VPoly) : Except String (List WaterbodyRow) :=
  let withUid := waterbodies.map fun g => (g, assignUid g)
  if (withUid.map Prod.snd).Nodup then
    Except.ok (numberRows 0 (sortByUid withUid))
  else
    Except.error "AssertionError: waterbodies uid column is not unique"

/-- One task of the tile-processing loop: a tile index plus its dataset ids. -/
structure TileTask where
  tile_index_x : ℤ
  tile_index_y : ℤ
  task_datasets_ids : List String
deriving DecidableEq

/-- The tile index keying the intermediate output object of a task. -/
def taskKey (t : TileTask) : ℤ × ℤ := (t.tile_index_x, t.tile_index_y)

/-- The intermediate polygon storage: one object per tile index, holding the
per-tile polygon set. -/
abbrev FileStore : Type := List ((ℤ × ℤ) × List Geom)

/-- Modelled from the spec: check_file_exists of the waterbodies io module is
not in this snapshot; per the spec the intermediate polygon storage holds one
addressable object per tile index, so existence is membership of the key. -/
def check_file_exists (files : FileStore) (key : ℤ × ℤ) : Bool :=
  files.any fun e => decide (e.1 = key)

/-- Writing the per-tile polygon set, overwriting any object under the same
tile index. -/
def writeFile (files : FileStore) (key : ℤ × ℤ) (body : List Geom) : FileStore :=
  (key, body) :: files.filter fun e => !decide (e.1 = key)

/-- State threaded through the tile-processing loop: the intermediate polygon
storage and the list of failed tasks. -/
structure LoopState where
  files : FileStore
  failed_tasks : List TileTask
deriving DecidableEq

/-- One iteration of the tile-processing loop (notebook lines 552 to 592): if
overwrite is enabled or no output object exists for the tile, run
get_waterbodies inside a try block, skip the write when the result is empty,
write the result keyed by tile index otherwise; any exception appends the task
to the failed list and the loop moves on.  get_waterbodies is a parameter
because its source lives outside this repository snapshot; a raised exception
is its error case. -/
def processTask (get_waterbodies : TileTask → Except String (List Geom))
    (overwrite : Bool) (s : LoopState) (t : TileTask) : LoopState :=
  if overwrite || !check_file_exists s.files (taskKey t) then
    match get_waterbodies t with
    | Except.error _ => { s with failed_tasks := s.failed_tasks ++ [t] }
    | Except.ok waterbody_polygons =>
        if waterbody_polygons.isEmpty then s
        else { s with files := writeFile s.files (taskKey t) waterbody_polygons }
  else s

/-- The whole tile-processing loop over the task list. -/
def processTasks (get_waterbodies : TileTask → Except String (List Geom))
    (overwrite : Bool) (s : LoopState) (tasks : List TileTask) : LoopState :=
  tasks.foldl (processTask get_waterbodies overwrite) s

/-- Land/sea mask consumption (mask tiling notebook, tile_raster): a pixel is
kept, with value one, exactly when its HydroSHEDS indicator value is 1 (land)
or 3 (inland sink); every other value, including 2 (ocean sink) and 255 (no
data), is masked out to zero. -/
def tile_raster_pixel (v : ℤ) : ℤ := if v = 1 ∨ v = 3 then 1 else 0

/-- The produced land/sea mask tile: the pixelwise classification applied to
the whole raster. -/
def tile_raster (land_mask : List (List ℤ)) : List (List ℤ) :=
  land_mask.map fun row => row.map tile_raster_pixel

/-- Concrete sample square polygon with vertices on a 2 by 2 extent. -/
def polyA : VPoly := [(0, 0), (2, 0), (2, 2), (0, 2)]

/-- The same region as polyA with one extra collinear vertex: a distinct
vertex list describing the identical region, hence the identical centroid. -/
def polyB : VPoly := [(0, 0), (2, 0), (2, 2), (0, 2), (0, 1)]

/-- Concrete 100 m by 100 m square, of area 10000 square metres. -/
def poly100 : VPoly := [(0, 0), (100, 0), (100, 100), (0, 100)]

/-- Concrete 100 m by 45 m rectangle, of area exactly 4500 square metres. -/
def rect4500 : VPoly := [(0, 0), (100, 0), (100, 45), (0, 45)]

/-- Concrete single-cell geometry at the origin. -/
def geomA : Geom := {(0, 0)}

/-- Concrete single-cell geometry far from the origin. -/
def geomB : Geom := {(10, 10)}

/-- Concrete two-cell geometry near geomB and away from geomA. -/
def geomC : Geom := {(11, 10), (12, 10)}

/-- Concrete sample task at tile index (0, 0). -/
def t0 : TileTask := { tile_index_x := 0, tile_index_y := 0, task_datasets_ids := [] }

/-- A tile processor that always raises. -/
def gwErr : TileTask → Except String (List Geom) := fun _ => Except.error "boom"

/-- A tile processor that always produces an empty polygon set. -/
def gwEmpty : TileTask → Except String (List Geom) := fun _ => Except.ok []

/-- A tile processor that always produces one single-cell polygon. -/
def gwOne : TileTask → Except String (List Geom) := fun _ => Except.ok [geomA]

/-- Concrete buffered tile-boundary ring consisting of one cell. -/
def ringR : Geom := {(5, 0)}

/-- Concrete one-cell polygon touching ringR from the left. -/
def geomL : Geom := {(4, 0)}

/-- Concrete one-cell polygon touching ringR from the right, two cells away
from geomL. -/
def geomRt : Geom := {(6, 0)}

/-- Concrete loop state holding one intermediate file at tile index (0, 0). -/
def sFile : LoopState := { files := [((0, 0), [geomA])], failed_tasks := [] }

/-! Lemmas about cell geometries and the union-and-explode model. -/

theorem cellTouches_symm (a b : Cell) : cellTouches a b = cellTouches b a := by
  rw [cellTouches, cellTouches, decide_eq_decide]
  omega

theorem geomTouches_true_iff {p q : Geom} :
    geomTouches p q = true ↔ ∃ a ∈ p, ∃ b ∈ q, cellTouches a b = true := by
  simp [geomTouches]

theorem geomTouches_false_iff {p q : Geom} :
    geomTouches p q = false ↔ ∀ a ∈ p, ∀ b ∈ q, cellTouches a b = false := by
  simp [geomTouches]

theorem geomTouches_symm (p q : Geom) : geomTouches p q = geomTouches q p := by
  rw [geomTouches, geomTouches, decide_eq_decide]
  constructor
  · rintro ⟨a, ha, b, hb, h⟩
    rw [cellTouches_symm] at h
    exact ⟨b, hb, a, ha, h⟩
  · rintro ⟨b, hb, a, ha, h⟩
    rw [cellTouches_symm] at h
    exact ⟨a, ha, b, hb, h⟩

theorem mem_mergeInto {c : Cell} : ∀ (l : List Geom) (x : Geom),
    c ∈ mergeInto x l ↔ c ∈ x ∨ ∃ q ∈ l, c ∈ q := by
  intro l
  induction l with
  | nil => intro x; simp [mergeInto]
  | cons q l ih =>
      intro x
      rw [mergeInto, ih (x ∪ q)]
      simp [Finset.mem_union]
      tauto

theorem geomTouches_mergeInto_false {p x : Geom} {l : List Geom}
    (hx : geomTouches p x = false) (hl : ∀ q ∈ l, geomTouches p q = false) :
    geomTouches p (mergeInto x l) = false := by
  rw [geomTouches_false_iff]
  intro a ha b hb
  rcases (mem_mergeInto l x).1 hb with hbx | ⟨q, hq, hbq⟩
  · exact (geomTouches_false_iff.1 hx) a ha b hbx
  · exact (geomTouches_false_iff.1 (hl q hq)) a ha b hbq

theorem length_filter_lt_of_mem {α : Type} {pred : α → Bool} :
    ∀ {l : List α} {a : α}, a ∈ l → pred a = true →
      (l.filter fun x => !pred x).length < l.length := by
  intro l
  induction l with
  | nil => intro a ha; simp at ha
  | cons x l ih =>
      intro a ha hp
      rcases List.mem_cons.1 ha with rfl | ha
      · simp [List.filter_cons, hp]
        exact Nat.lt_succ_of_le (List.length_filter_le _ l)
      · by_cases hx : pred x = true
        · simp only [List.filter_cons, hx, Bool.not_true, List.length_cons]
          exact Nat.lt_succ_of_le (List.length_filter_le _ l)
        · have hx2 : pred x = false := by revert hx; cases pred x <;> simp
          simp only [List.filter_cons, hx2, Bool.not_false, if_true, List.length_cons]
          exact Nat.succ_lt_succ (ih ha hp)

theorem unary_union_explode_cons (fuel : Nat) (y : Geom) (rest : List Geom) :
    unary_union_explode (fuel + 1) (y :: rest) =
      if (rest.filter fun q => geomTouches y q).isEmpty then
        y :: unary_union_explode fuel rest
      else
        unary_union_explode fuel
          (mergeInto y (rest.filter fun q => geomTouches y q)
            :: rest.filter fun q => !geomTouches y q) := by
  rfl

/-- Key fact about the union-and-explode model: a polygon that touches none of
the other polygons in the list is reproduced unchanged in the output. -/
theorem mem_unary_union_explode_separated :
    ∀ (fuel : Nat) (l₁ l₂ : List Geom) (p : Geom),
      (l₁ ++ p :: l₂).length ≤ fuel →
      (∀ q ∈ l₁ ++ l₂, geomTouches p q = false) →
      p ∈ unary_union_explode fuel (l₁ ++ p :: l₂) := by
  intro fuel
  induction fuel with
  | zero =>
      intro l₁ l₂ p hlen _
      exfalso
      simp [List.length_append] at hlen
  | succ fuel ih =>
      intro l₁ l₂ p hlen hsep
      cases l₁ with
      | nil =>
          have htouch : l₂.filter (fun q => geomTouches p q) = [] := by
            apply List.filter_eq_nil_iff.2
            intro q hq
            simp [hsep q (by simpa using hq)]
          rw [List.nil_append, unary_union_explode_cons, htouch]
          simp
      | cons x l₁x =>
          have hdist : geomTouches p x = false := hsep x (by simp)
          have hxp : geomTouches x p = false := by
            rw [geomTouches_symm]; exact hdist
          have hothers : ∀ q ∈ l₁x ++ l₂, geomTouches p q = false := by
            intro q hq
            apply hsep
            simp at hq ⊢
            tauto
          simp only [List.cons_append]
          rw [unary_union_explode_cons]
          by_cases hT : (l₁x ++ p :: l₂).filter (fun q => geomTouches x q) = []
          · rw [hT]
            simp only [List.isEmpty_nil, if_true]
            apply List.mem_cons_of_mem
            apply ih l₁x l₂ p ?_ hothers
            simp only [List.length_cons, List.length_append] at hlen ⊢
            omega
          · rw [if_neg (fun hcontra => hT (List.isEmpty_iff.1 hcontra))]
            have hfilter :
                (l₁x ++ p :: l₂).filter (fun q => !geomTouches x q)
                  = l₁x.filter (fun q => !geomTouches x q)
                    ++ p :: l₂.filter (fun q => !geomTouches x q) := by
              rw [List.filter_append, List.filter_cons]
              simp [hxp]
            have htouchmem : ∀ q ∈ (l₁x ++ p :: l₂).filter (fun q => geomTouches x q),
                geomTouches p q = false := by
              intro q hq
              rcases List.mem_filter.1 hq with ⟨hqrest, hxq⟩
              rcases List.mem_append.1 hqrest with h1 | h2
              · exact hothers q (List.mem_append.2 (Or.inl h1))
              · rcases List.mem_cons.1 h2 with rfl | h3
                · rw [hxp] at hxq; cases hxq
                · exact hothers q (List.mem_append.2 (Or.inr h3))
            have hm : geomTouches p
                (mergeInto x ((l₁x ++ p :: l₂).filter fun q => geomTouches x q)) = false :=
              geomTouches_mergeInto_false hdist htouchmem
            have hlt : ((l₁x ++ p :: l₂).filter fun q => !geomTouches x q).length
                < (l₁x ++ p :: l₂).length := by
              have hex : ∃ q ∈ (l₁x ++ p :: l₂), geomTouches x q = true := by
                by_contra hno
                push_neg at hno
                apply hT
                apply List.filter_eq_nil_iff.2
                intro q hq
                simp only [Bool.not_eq_true] at hno
                simp [hno q hq]
              rcases hex with ⟨q, hq, hqt⟩
              exact length_filter_lt_of_mem hq hqt
            have key : p ∈ unary_union_explode fuel
                ((mergeInto x ((l₁x ++ p :: l₂).filter fun q => geomTouches x q)
                    :: l₁x.filter (fun q => !geomTouches x q))
                  ++ p :: l₂.filter (fun q => !geomTouches x q)) := by
              apply ih
              · rw [hfilter] at hlt
                simp only [List.length_cons, List.length_append] at hlen hlt ⊢
                omega
              · intro q hq
                rcases List.mem_append.1 hq with h1 | h2
                · rcases List.mem_cons.1 h1 with rfl | h3
                  · exact hm
                  · exact hothers q (List.mem_append.2 (Or.inl (List.mem_filter.1 h3).1))
                · exact hothers q (List.mem_append.2 (Or.inr (List.mem_filter.1 h2).1))
            rw [hfilter]
            simpa only [List.cons_append] using key

theorem stitch_eq (rings ws : List Geom) :
    stitchWaterbodies rings ws
      = ws.filter (fun p => !boundaryTouch rings p)
        ++ unary_union_explode (ws.filter (boundaryTouch rings)).length
            (ws.filter (boundaryTouch rings)) := by
  by_cases h : ws.filter (boundaryTouch rings) = []
  · have hall : ∀ p ∈ ws, boundaryTouch rings p = false := by
      intro p hp
      have h2 := List.filter_eq_nil_iff.1 h p hp
      revert h2
      cases boundaryTouch rings p <;> simp
    have hself : ws.filter (fun p => !boundaryTouch rings p) = ws := by
      apply List.filter_eq_self.2
      intro p hp
      simp [hall p hp]
    have hstitch : stitchWaterbodies rings ws = ws := by
      simp only [stitchWaterbodies, h]
      rfl
    rw [hstitch, h, hself]
    rw [show unary_union_explode (List.length ([] : List Geom)) ([] : List Geom)
      = [] from rfl]
    rw [List.append_nil]
  · simp only [stitchWaterbodies]
    rw [if_neg (fun hc => h (List.isEmpty_iff.1 hc))]

/-- Claim C1: in the boundary stitcher every intermediate polygon intersecting
some tile-boundary ring is set aside, the whole boundary-touching set is
unioned into a single geometry and exploded back into single-part polygons,
every polygon intersecting no ring appears in the output unchanged, and the
output is exactly the concatenation of these two groups. -/
theorem stitchWaterbodies_partition (rings ws : List Geom) :
    (stitchWaterbodies rings ws
      = ws.filter (fun p => !boundaryTouch rings p)
        ++ unary_union_explode (ws.filter (boundaryTouch rings)).length
            (ws.filter (boundaryTouch rings)))
    ∧ (∀ p ∈ ws, boundaryTouch rings p = false → p ∈ stitchWaterbodies rings ws) := by
  refine ⟨stitch_eq rings ws, ?_⟩
  intro p hp hb
  rw [stitch_eq]
  apply List.mem_append.2
  left
  exact List.mem_filter.2 ⟨hp, by simp [hb]⟩

theorem stitchWaterbodies_partition_witness :
    geomA ∈ [geomA] ∧ boundaryTouch [ringR] geomA = false
    ∧ geomA ∈ stitchWaterbodies [ringR] [geomA] :=
  ⟨by simp, by decide,
    (stitchWaterbodies_partition [ringR] [geomA]).2 geomA (by simp) (by decide)⟩

/-- Claim C8: a boundary-touching polygon that is disjoint from every other
boundary-touching polygon is reproduced by the union-then-explode step as a
standalone single-part polygon with its geometry unchanged, and hence appears
unchanged in the stitcher output. -/
theorem standalone_boundary_polygon_preserved (rings ws l₁ l₂ : List Geom) (p : Geom)
    (hsplit : ws.filter (boundaryTouch rings) = l₁ ++ p :: l₂)
    (hsep : ∀ q ∈ l₁ ++ l₂, geomTouches p q = false) :
    p ∈ unary_union_explode (l₁ ++ p :: l₂).length (l₁ ++ p :: l₂)
    ∧ p ∈ stitchWaterbodies rings ws := by
  have h1 := mem_unary_union_explode_separated (l₁ ++ p :: l₂).length l₁ l₂ p
    (le_refl _) hsep
  refine ⟨h1, ?_⟩
  rw [stitch_eq]
  apply List.mem_append.2
  right
  rw [hsplit]
  exact h1

theorem standalone_boundary_polygon_preserved_witness :
    geomL ∈ unary_union_explode ([geomRt] ++ geomL :: []).length ([geomRt] ++ geomL :: [])
    ∧ geomL ∈ stitchWaterbodies [ringR] [geomRt, geomL] :=
  standalone_boundary_polygon_preserved [ringR] [geomRt, geomL] [geomRt] [] geomL
    (by decide) (by decide)

/-! Lemmas about the attribute and identity stage. -/

theorem polyArea_poly100 : polyArea poly100 = 10000 := by
  norm_num [polyArea, shoelaceSum, ringEdges, poly100, List.rotate]

theorem polyArea_rect4500 : polyArea rect4500 = 4500 := by
  norm_num [polyArea, shoelaceSum, ringEdges, rect4500, List.rotate]

/-- Claim C4: after the attribute-filtering step every surviving waterbody has
area at least 4500 square metres and length at most 150 km. -/
theorem filterAttributes_bounds (get_polygon_length : VPoly → ℚ)
    (waterbodies : List VPoly) (g : VPoly)
    (h : g ∈ filterAttributes get_polygon_length waterbodies) :
    4500 ≤ polyArea g ∧ get_polygon_length g ≤ 150000 := by
  simp only [filterAttributes, filterByLength, filterByArea] at h
  rcases List.mem_filter.1 h with ⟨h1, h2⟩
  rcases List.mem_filter.1 h1 with ⟨h0, h3⟩
  refine ⟨le_of_lt (of_decide_eq_true h3), ?_⟩
  have h4 := of_decide_eq_true h2
  linarith

theorem filterAttributes_bounds_witness :
    4500 ≤ polyArea poly100 ∧ (fun _ : VPoly => (0 : ℚ)) poly100 ≤ 150000 :=
  filterAttributes_bounds (fun _ => 0) [poly100] poly100
    (by simp [filterAttributes, filterByArea, filterByLength, polyArea_poly100]; norm_num)

/-- Counterexample to claim C5 as stated: a polygon whose area is exactly
4500 square metres is discarded by the area filter, not retained, because the
code keeps only areas strictly greater than the threshold. -/
theorem filterByArea_boundary_counterexample :
    polyArea rect4500 = 4500 ∧ rect4500 ∉ filterByArea [rect4500] :=
  ⟨polyArea_rect4500, by simp [filterByArea, polyArea_rect4500]⟩

/-- Claim C5 (amended): the area filter retains exactly the polygons whose
projected area is strictly greater than 4500 square metres; a polygon whose
area equals exactly 4500 is discarded. -/
theorem filterByArea_mem_iff (waterbodies : List VPoly) (g : VPoly) :
    g ∈ filterByArea waterbodies ↔ g ∈ waterbodies ∧ 4500 < polyArea g := by
  simp [filterByArea, List.mem_filter]

theorem ghEncodeAux_length : ∀ (p : Nat) (s : GHState), (ghEncodeAux p s).length = p := by
  intro p
  induction p with
  | zero => intro s; rfl
  | succ n ih => intro s; simp [ghEncodeAux, ih]

/-- Claim C2: the stable identifier of a waterbody equals the geohash at
precision 10 of the centroid coordinates, latitude first; the identifier has
exactly ten base-32 characters, and it is a deterministic function of the
geometry. -/
theorem assignUid_geohash_deterministic (g : VPoly) :
    assignUid g = gh_encode 10 (centroidY g) (centroidX g)
    ∧ (assignUid g).length = 10
    ∧ ∀ g2 : VPoly, g = g2 → assignUid g = assignUid g2 := by
  refine ⟨rfl, ?_, ?_⟩
  · show (gh_encode 10 (centroidY g) (centroidX g)).length = 10
    simp [gh_encode, String.length, ghEncodeAux_length]
  · intro g2 h
    rw [h]

theorem assignUid_geohash_deterministic_witness :
    (assignUid polyA).length = 10 ∧ assignUid polyA = assignUid polyA :=
  ⟨(assignUid_geohash_deterministic polyA).2.1,
   (assignUid_geohash_deterministic polyA).2.2 polyA rfl⟩

theorem mem_insertByUid (e a : VPoly × String) :
    ∀ (l : List (VPoly × String)), a ∈ insertByUid e l ↔ a = e ∨ a ∈ l := by
  intro l
  induction l with
  | nil => simp [insertByUid]
  | cons f l ih =>
      simp only [insertByUid]
      split
      · simp
      · simp only [List.mem_cons, ih]
        tauto

theorem mem_sortByUid (a : VPoly × String) :
    ∀ (l : List (VPoly × String)), a ∈ sortByUid l ↔ a ∈ l := by
  intro l
  induction l with
  | nil => simp [sortByUid]
  | cons e l ih =>
      simp only [sortByUid, mem_insertByUid, ih, List.mem_cons]

theorem mem_numberRows (r : WaterbodyRow) :
    ∀ (i : Nat) (l : List (VPoly × String)), r ∈ numberRows i l →
      ∃ e ∈ l, r.geometry = e.1 ∧ r.uid = e.2 := by
  intro i l
  induction l generalizing i with
  | nil => intro h; simp [numberRows] at h
  | cons e l ih =>
      intro h
      rcases List.mem_cons.1 h with rfl | htail
      · exact ⟨e, by simp, rfl, rfl⟩
      · rcases ih (i + 1) htail with ⟨f, hf, hg, hu⟩
        exact ⟨f, List.mem_cons_of_mem e hf, hg, hu⟩

theorem withUid_map_snd (ws : List VPoly) :
    ((ws.map fun g => (g, assignUid g)).map Prod.snd) = ws.map assignUid := by
  rw [List.map_map]
  rfl

/-- Claim C3: if two distinct polygons in the candidate set hash to the same
identifier, identity assignment fails the whole run with an assertion error;
identifiers are never modified to resolve a collision, and when all
identifiers are distinct the assignment succeeds with each row keeping the
identifier computed from its own geometry. -/
theorem assignIdentity_collision_fatal (waterbodies : List VPoly) :
    ((∃ g ∈ waterbodies, ∃ g2 ∈ waterbodies, g ≠ g2 ∧ assignUid g = assignUid g2) →
        ∃ msg, assignIdentity waterbodies = Except.error msg)
    ∧ ((waterbodies.map assignUid).Nodup →
        ∃ rows, assignIdentity waterbodies = Except.ok rows
          ∧ ∀ r ∈ rows, r.uid = assignUid r.geometry ∧ r.geometry ∈ waterbodies) := by
  constructor
  · rintro ⟨g, hg, g2, hg2, hne, heq⟩
    by_cases hnod : ((waterbodies.map fun g => (g, assignUid g)).map Prod.snd).Nodup
    · exfalso
      rw [withUid_map_snd] at hnod
      exact hne (List.inj_on_of_nodup_map hnod hg hg2 heq)
    · refine ⟨"AssertionError: waterbodies uid column is not unique", ?_⟩
      simp only [assignIdentity, if_neg hnod]
  · intro hnod
    have hnod2 : ((waterbodies.map fun g => (g, assignUid g)).map Prod.snd).Nodup := by
      rw [withUid_map_snd]
      exact hnod
    refine ⟨numberRows 0 (sortByUid (waterbodies.map fun g => (g, assignUid g))), ?_, ?_⟩
    · simp only [assignIdentity, if_pos hnod2]
    · intro r hr
      rcases mem_numberRows r 0 _ hr with ⟨e, he, hg, hu⟩
      have he2 : e ∈ waterbodies.map fun g => (g, assignUid g) :=
        (mem_sortByUid e _).1 he
      rcases List.mem_map.1 he2 with ⟨g, hgmem, hge⟩
      constructor
      · rw [hu, hg, ← hge]
      · rw [hg, ← hge]
        exact hgmem

theorem polyA_ne_polyB : polyA ≠ polyB := by
  intro h
  have h2 := congrArg List.length h
  simp [polyA, polyB] at h2

theorem assignUid_polyA_eq_polyB : assignUid polyA = assignUid polyB := by
  have hx : centroidX polyA = centroidX polyB := by
    norm_num [centroidX, shoelaceSum, ringEdges, polyA, polyB, List.rotate]
  have hy : centroidY polyA = centroidY polyB := by
    norm_num [centroidY, shoelaceSum, ringEdges, polyA, polyB, List.rotate]
  rw [assignUid, assignUid, hx, hy]

theorem assignIdentity_collision_fatal_witness :
    (∃ msg, assignIdentity [polyA, polyB] = Except.error msg)
    ∧ (∃ rows, assignIdentity [polyA] = Except.ok rows
        ∧ ∀ r ∈ rows, r.uid = assignUid r.geometry ∧ r.geometry ∈ [polyA]) :=
  ⟨(assignIdentity_collision_fatal [polyA, polyB]).1
      ⟨polyA, by simp, polyB, by simp, polyA_ne_polyB, assignUid_polyA_eq_polyB⟩,
   (assignIdentity_collision_fatal [polyA]).2 (by simp)⟩

/-! Lemmas about the tile-processing loop. -/

theorem check_file_exists_writeFile (files : FileStore) (key : ℤ × ℤ) (body : List Geom) :
    check_file_exists (writeFile files key body) key = true := by
  simp [check_file_exists, writeFile]

theorem processTask_skip_core (gw : TileTask → Except String (List Geom))
    (s : LoopState) (t : TileTask)
    (hex : check_file_exists s.files (taskKey t) = true) :
    processTask gw false s t = s := by
  simp [processTask, hex]

theorem processTask_files_congr (gw : TileTask → Except String (List Geom)) (ov : Bool)
    (f : FileStore) (d₁ d₂ : List TileTask) (t : TileTask) :
    (processTask gw ov ⟨f, d₁⟩ t).files = (processTask gw ov ⟨f, d₂⟩ t).files := by
  simp only [processTask]
  split
  · split
    · rfl
    · split <;> rfl
  · rfl

theorem processTasks_files_congr (gw : TileTask → Except String (List Geom)) (ov : Bool) :
    ∀ (l : List TileTask) (f : FileStore) (d₁ d₂ : List TileTask),
      (processTasks gw ov ⟨f, d₁⟩ l).files = (processTasks gw ov ⟨f, d₂⟩ l).files := by
  intro l
  induction l with
  | nil => intro f d₁ d₂; rfl
  | cons u l ih =>
      intro f d₁ d₂
      show (processTasks gw ov (processTask gw ov ⟨f, d₁⟩ u) l).files
        = (processTasks gw ov (processTask gw ov ⟨f, d₂⟩ u) l).files
      have h1 : (processTask gw ov ⟨f, d₁⟩ u).files = (processTask gw ov ⟨f, d₂⟩ u).files :=
        processTask_files_congr gw ov f d₁ d₂ u
      rcases hs₁ : processTask gw ov ⟨f, d₁⟩ u with ⟨f₁, e₁⟩
      rcases hs₂ : processTask gw ov ⟨f, d₂⟩ u with ⟨f₂, e₂⟩
      rw [hs₁, hs₂] at h1
      have h2 : f₁ = f₂ := h1
      subst h2
      exact ih f₁ e₁ e₂

theorem processTask_failed_cases (gw : TileTask → Except String (List Geom)) (ov : Bool)
    (s : LoopState) (t : TileTask) :
    (processTask gw ov s t).failed_tasks = s.failed_tasks
    ∨ (processTask gw ov s t).failed_tasks = s.failed_tasks ++ [t] := by
  simp only [processTask]
  split
  · split
    · right; rfl
    · split
      · left; rfl
      · left; rfl
  · left; rfl

theorem processTasks_failed_append (gw : TileTask → Except String (List Geom)) (ov : Bool) :
    ∀ (l : List TileTask) (s : LoopState),
      ∃ ext, (processTasks gw ov s l).failed_tasks = s.failed_tasks ++ ext := by
  intro l
  induction l with
  | nil => intro s; exact ⟨[], by simp [processTasks]⟩
  | cons u l ih =>
      intro s
      rcases ih (processTask gw ov s u) with ⟨ext, hext⟩
      rcases processTask_failed_cases gw ov s u with h | h
      · exact ⟨ext, by rw [show processTasks gw ov s (u :: l)
          = processTasks gw ov (processTask gw ov s u) l from rfl, hext, h]⟩
      · exact ⟨[u] ++ ext, by rw [show processTasks gw ov s (u :: l)
          = processTasks gw ov (processTask gw ov s u) l from rfl, hext, h,
          List.append_assoc]⟩

theorem processTask_count_le (gw : TileTask → Except String (List Geom)) (ov : Bool)
    (s : LoopState) (t u : TileTask) :
    (processTask gw ov s t).failed_tasks.count u
      ≤ s.failed_tasks.count u + (if u = t then 1 else 0) := by
  rcases processTask_failed_cases gw ov s t with h | h
  · rw [h]
    by_cases hut : u = t <;> simp [hut]
  · rw [h, List.count_append, List.count_singleton]
    by_cases hut : u = t
    · subst hut; simp
    · have h4 : (t == u) = false := beq_eq_false_iff_ne.2 (fun hc => hut hc.symm)
      simp [h4, hut]

theorem processTasks_count_le (gw : TileTask → Except String (List Geom)) (ov : Bool) :
    ∀ (l : List TileTask) (s : LoopState) (u : TileTask),
      (processTasks gw ov s l).failed_tasks.count u
        ≤ s.failed_tasks.count u + l.count u := by
  intro l
  induction l with
  | nil => intro s u; simp [processTasks]
  | cons t l ih =>
      intro s u
      have h1 := ih (processTask gw ov s t) u
      have h2 := processTask_count_le gw ov s t u
      have h0 : processTasks gw ov s (t :: l) = processTasks gw ov (processTask gw ov s t) l := rfl
      rw [h0]
      by_cases hut : u = t
      · subst hut
        have h3 : (u :: l).count u = l.count u + 1 := by simp [List.count_cons]
        have h2b : (processTask gw ov s u).failed_tasks.count u
            ≤ s.failed_tasks.count u + 1 := by simpa using h2
        rw [h3]
        omega
      · have h4 : (t == u) = false := beq_eq_false_iff_ne.2 (fun hc => hut hc.symm)
        have h3 : (t :: l).count u = l.count u := by
          rw [List.count_cons, h4]
          simp
        have h2b : (processTask gw ov s t).failed_tasks.count u
            ≤ s.failed_tasks.count u := by simpa [hut] using h2
        rw [h3]
        omega

theorem processTask_error_step (gw : TileTask → Except String (List Geom)) (ov : Bool)
    (s : LoopState) (t : TileTask) (e : String)
    (herr : gw t = Except.error e)
    (hguard : (ov || !check_file_exists s.files (taskKey t)) = true) :
    processTask gw ov s t = { s with failed_tasks := s.failed_tasks ++ [t] } := by
  simp [processTask, hguard, herr]

theorem processTask_files_nonempty (gw : TileTask → Except String (List Geom)) (ov : Bool)
    (s : LoopState) (t : TileTask)
    (hinv : ∀ en ∈ s.files, en.2 ≠ ([] : List Geom)) :
    ∀ en ∈ (processTask gw ov s t).files, en.2 ≠ [] := by
  intro en hen
  by_cases hg : (ov || !check_file_exists s.files (taskKey t)) = true
  · simp only [processTask, hg, if_true] at hen
    cases hgw : gw t with
    | error e =>
        rw [hgw] at hen
        exact hinv en hen
    | ok wp =>
        rw [hgw] at hen
        cases wp with
        | nil =>
            simp only [List.isEmpty_nil, if_true] at hen
            exact hinv en hen
        | cons g wp =>
            simp only [List.isEmpty_cons, if_false, Bool.false_eq_true] at hen
            simp only [writeFile] at hen
            rcases List.mem_cons.1 hen with rfl | htail
            · simp
            · exact hinv en (List.mem_filter.1 htail).1
  · simp only [processTask, if_neg hg] at hen
    exact hinv en hen

theorem processTasks_files_nonempty (gw : TileTask → Except String (List Geom)) (ov : Bool) :
    ∀ (l : List TileTask) (s : LoopState),
      (∀ en ∈ s.files, en.2 ≠ ([] : List Geom)) →
      ∀ en ∈ (processTasks gw ov s l).files, en.2 ≠ [] := by
  intro l
  induction l with
  | nil => intro s h; exact h
  | cons u l ih =>
      intro s h
      exact ih (processTask gw ov s u) (processTask_files_nonempty gw ov s u h)

/-- Claim C6: with overwrite disabled, a task whose intermediate file already
exists performs no processing and no write, leaving the whole state unchanged
and producing the same result for any tile-processor function; any task that
changes the state must have overwrite enabled or no existing file. -/
theorem processTask_skip_when_exists (gw gw2 : TileTask → Except String (List Geom))
    (s : LoopState) (t : TileTask) :
    (check_file_exists s.files (taskKey t) = true → processTask gw false s t = s)
    ∧ (∀ overwrite : Bool, processTask gw overwrite s t ≠ s →
        overwrite = true ∨ check_file_exists s.files (taskKey t) = false)
    ∧ (check_file_exists s.files (taskKey t) = true →
        processTask gw false s t = processTask gw2 false s t) := by
  refine ⟨fun hex => processTask_skip_core gw s t hex, ?_, ?_⟩
  · intro ov hne
    cases ov with
    | true => exact Or.inl rfl
    | false =>
        right
        cases hex : check_file_exists s.files (taskKey t) with
        | true => exact absurd (processTask_skip_core gw s t hex) hne
        | false => rfl
  · intro hex
    rw [processTask_skip_core gw s t hex, processTask_skip_core gw2 s t hex]

theorem processTask_skip_when_exists_witness :
    check_file_exists sFile.files (taskKey t0) = true
    ∧ processTask gwErr false sFile t0 = sFile :=
  ⟨by decide, (processTask_skip_when_exists gwErr gwOne sFile t0).1 (by decide)⟩

/-- Claim C7: an exception raised while processing a task is caught, the task
is appended to the failed list, and the loop continues with the remaining
tasks; the failing task leaves the intermediate storage exactly as if it were
absent from the task list, and any task appears in the failed list at most as
often as it appears in the task list. -/
theorem processTasks_fault_isolation (gw : TileTask → Except String (List Geom)) (ov : Bool)
    (s : LoopState) (l₁ l₂ : List TileTask) (t : TileTask) (e : String)
    (herr : gw t = Except.error e)
    (hguard : (ov || !check_file_exists (processTasks gw ov s l₁).files (taskKey t)) = true) :
    (processTasks gw ov s (l₁ ++ t :: l₂)).files = (processTasks gw ov s (l₁ ++ l₂)).files
    ∧ t ∈ (processTasks gw ov s (l₁ ++ t :: l₂)).failed_tasks
    ∧ ∀ u : TileTask,
        (processTasks gw ov s (l₁ ++ t :: l₂)).failed_tasks.count u
          ≤ s.failed_tasks.count u + (l₁ ++ t :: l₂).count u := by
  have hsplit : processTasks gw ov s (l₁ ++ t :: l₂)
      = processTasks gw ov (processTask gw ov (processTasks gw ov s l₁) t) l₂ := by
    simp [processTasks, List.foldl_append]
  have hsplit2 : processTasks gw ov s (l₁ ++ l₂)
      = processTasks gw ov (processTasks gw ov s l₁) l₂ := by
    simp [processTasks, List.foldl_append]
  have herrstep : processTask gw ov (processTasks gw ov s l₁) t
      = { processTasks gw ov s l₁ with
          failed_tasks := (processTasks gw ov s l₁).failed_tasks ++ [t] } :=
    processTask_error_step gw ov (processTasks gw ov s l₁) t e herr hguard
  refine ⟨?_, ?_, ?_⟩
  · rw [hsplit, hsplit2, herrstep]
    exact processTasks_files_congr gw ov l₂ (processTasks gw ov s l₁).files
      ((processTasks gw ov s l₁).failed_tasks ++ [t]) (processTasks gw ov s l₁).failed_tasks
  · rw [hsplit, herrstep]
    rcases processTasks_failed_append gw ov l₂
      { processTasks gw ov s l₁ with
        failed_tasks := (processTasks gw ov s l₁).failed_tasks ++ [t] } with ⟨ext, hext⟩
    rw [hext]
    simp
  · intro u
    rw [hsplit]
    have c1 := processTasks_count_le gw ov l₂ (processTask gw ov (processTasks gw ov s l₁) t) u
    have c2 := processTask_count_le gw ov (processTasks gw ov s l₁) t u
    have c3 := processTasks_count_le gw ov l₁ s u
    rw [List.count_append, List.count_cons]
    by_cases hut : u = t
    · subst hut
      have c2b : (processTask gw ov (processTasks gw ov s l₁) u).failed_tasks.count u
          ≤ (processTasks gw ov s l₁).failed_tasks.count u + 1 := by simpa using c2
      simp only [beq_self_eq_true, if_true]
      omega
    · have h4 : (t == u) = false := beq_eq_false_iff_ne.2 (fun hc => hut hc.symm)
      have c2b : (processTask gw ov (processTasks gw ov s l₁) t).failed_tasks.count u
          ≤ (processTasks gw ov s l₁).failed_tasks.count u := by simpa [hut] using c2
      simp only [h4, Bool.false_eq_true, if_false]
      omega

theorem processTasks_fault_isolation_witness :
    (processTasks gwErr true { files := [], failed_tasks := [] } [t0]).files
        = (processTasks gwErr true { files := [], failed_tasks := [] } []).files
    ∧ t0 ∈ (processTasks gwErr true { files := [], failed_tasks := [] } [t0]).failed_tasks
    ∧ ∀ u : TileTask,
        (processTasks gwErr true { files := [], failed_tasks := [] } [t0]).failed_tasks.count u
          ≤ ({ files := [], failed_tasks := [] } : LoopState).failed_tasks.count u
            + ([t0] : List TileTask).count u :=
  processTasks_fault_isolation gwErr true { files := [], failed_tasks := [] } [] [] t0 "boom"
    rfl rfl

/-- Claim C10: a task whose computed polygon set is empty writes nothing and
leaves the state unchanged, so an intermediate file exists only for tiles that
produced at least one polygon, and on a later run with overwrite disabled such
a tile is reprocessed, writing its file once the result is nonempty. -/
theorem processTask_empty_result (gw gw2 gw3 : TileTask → Except String (List Geom))
    (ov ov3 : Bool) (s : LoopState) (t : TileTask) (l : List TileTask)
    (hempty : gw t = Except.ok []) :
    processTask gw ov s t = s
    ∧ (∀ wp, gw2 t = Except.ok wp → wp ≠ [] →
        check_file_exists s.files (taskKey t) = false →
        check_file_exists (processTask gw2 false s t).files (taskKey t) = true)
    ∧ ((∀ en ∈ s.files, en.2 ≠ ([] : List Geom)) →
        ∀ en ∈ (processTasks gw3 ov3 s l).files, en.2 ≠ []) := by
  refine ⟨?_, ?_, fun h => processTasks_files_nonempty gw3 ov3 l s h⟩
  · simp [processTask, hempty]
  · intro wp h2 hwp hex
    cases wp with
    | nil => exact absurd rfl hwp
    | cons g wp =>
        simp [processTask, hex, h2, check_file_exists_writeFile]

theorem processTask_empty_result_witness :
    processTask gwEmpty true { files := [], failed_tasks := [] } t0
        = { files := [], failed_tasks := [] }
    ∧ check_file_exists
        (processTask gwOne false { files := [], failed_tasks := [] } t0).files
        (taskKey t0) = true :=
  ⟨(processTask_empty_result gwEmpty gwOne gwEmpty true true
      { files := [], failed_tasks := [] } t0 [t0] rfl).1,
   (processTask_empty_result gwEmpty gwOne gwEmpty true true
      { files := [], failed_tasks := [] } t0 [t0] rfl).2.1 [geomA] rfl (by simp) rfl⟩

/-- Claim C9: in the produced land/sea mask tile a pixel is one exactly when
its HydroSHEDS indicator value is 1 (land) or 3 (inland sink), and zero for
every other value, including 2 (ocean sink) and 255 (no data). -/
theorem tile_raster_classification (land_mask : List (List ℤ)) (i j : Nat)
    (row : List ℤ) (v : ℤ)
    (hrow : land_mask[i]? = some row) (hv : row[j]? = some v) :
    ((tile_raster land_mask)[i]? = some (row.map tile_raster_pixel))
    ∧ ((row.map tile_raster_pixel)[j]? = some (tile_raster_pixel v))
    ∧ (tile_raster_pixel v = 1 ↔ (v = 1 ∨ v = 3))
    ∧ (tile_raster_pixel v = 0 ↔ ¬(v = 1 ∨ v = 3)) := by
  refine ⟨?_, ?_, ?_, ?_⟩
  · rw [tile_raster, List.getElem?_map, hrow]
    rfl
  · rw [List.getElem?_map, hv]
    rfl
  · by_cases h : v = 1 ∨ v = 3 <;> simp [tile_raster_pixel, h]
  · by_cases h : v = 1 ∨ v = 3 <;> simp [tile_raster_pixel, h]

theorem tile_raster_classification_witness :
    ((tile_raster [[1, 2], [3, 255]])[0]? = some ([1, 2].map tile_raster_pixel))
    ∧ (([1, 2].map tile_raster_pixel)[1]? = some (tile_raster_pixel 2))
    ∧ (tile_raster_pixel 2 = 1 ↔ ((2 : ℤ) = 1 ∨ (2 : ℤ) = 3))
    ∧ (tile_raster_pixel 2 = 0 ↔ ¬((2 : ℤ) = 1 ∨ (2 : ℤ) = 3)) :=
  tile_raster_classification [[1, 2], [3, 255]] 0 1 [1, 2] 2 rfl rfl
